import Mathlib

/-!
Shallow embedding of the cv_rag retrieval-augmented QA pipeline.

Source files embedded here:
* `src/text_processor.py` — `TextProcessor`: token-window chunking,
  token counting, budget-bounded context assembly, truncation, block
  formatting.
* `src/pgvector_client.py` — `PgVectorClient.search`: similarity search
  (the SQL `WHERE 1 - (embedding <=> q) >= thr ORDER BY embedding <=> q
  LIMIT k` is modelled by filter / stable sort on distance / take, with
  the pgvector `<=>` cosine-distance of each stored row to the query
  abstracted as a rational field `dist` of the row).
* `src/insert_documents.py` — `transform_chunks_with_embeddings`:
  batched embedding generation.

Python `float` scores are modelled as `ℚ`; Python `int` as `Int` where a
value can go negative (token budgets), `Nat` for list indices/lengths.
A Python function that may raise is modelled with `Except`; a caught
exception is an `Except.error` input consumed by the handler.
-/

/-- Abstract tokenizer (the tiktoken encoder is an external collaborator):
`encode` maps text to token ids, `decode` maps token ids back to text. -/
structure Tokenizer where
  encode : String → List Nat
  decode : List Nat → String

/-- Concrete executable tokenizer used for witnesses: one token per
character (token id = code point). -/
def charTok : Tokenizer where
  encode s := s.data.map Char.toNat
  decode l := String.mk (l.map Char.ofNat)

/-- ASCII whitespace recognised by Python `str.strip()`. -/
def isPySpace (c : Char) : Bool :=
  c == ' ' || c == '\t' || c == '\n' || c == '\r' || c == '\x0b' || c == '\x0c'

/-- Python `text.strip()`: drop leading and trailing whitespace. -/
def pyStrip (s : String) : String :=
  String.mk (((s.data.dropWhile isPySpace).reverse.dropWhile isPySpace).reverse)

/-- Python slice `l[:m]` for an arbitrary (possibly negative) integer
bound `m`: a negative bound counts from the end, clamped at `0`. -/
def pyTake (l : List α) (m : Int) : List α :=
  l.take (if m < 0 then ((l.length : Int) + m).toNat else m.toNat)

/-- Configuration state of `TextProcessor.__init__`
(`src/text_processor.py:17-42`). The constructor stores the three sizes
and a tokenizer; it performs no validation of `chunk_size` against
`chunk_overlap` (there is no `ConfigurationError` anywhere in the
repository). -/
structure TextProcessor where
  chunk_size : Nat
  chunk_overlap : Nat
  max_context_tokens : Int
  tokenizer : Tokenizer

/-- Building a `TextProcessor` from its constructor arguments: total for
every parameter combination — `__init__` raises nothing. -/
def TextProcessor.init (cs ov : Nat) (mct : Int) (tok : Tokenizer) : TextProcessor :=
  { chunk_size := cs, chunk_overlap := ov, max_context_tokens := mct, tokenizer := tok }

/-- Source `count_tokens` (`src/text_processor.py:44-46`):
`len(self.tokenizer.encode(text)) if text else 0`. -/
def TextProcessor.count_tokens (tp : TextProcessor) (text : String) : Nat :=
  if text = "" then 0 else (tp.tokenizer.encode text).length

/-- One chunk dictionary as produced by `chunk_text`
(`src/text_processor.py:74-81`). -/
structure PyChunk where
  content : String
  chunk_id : Nat
  token_count : Nat
  start_token : Nat
  end_token : Nat
  source : String
deriving DecidableEq

/-- The `while start < len(tokens)` loop of `chunk_text`
(`src/text_processor.py:70-84`) for a valid configuration
(`chunk_overlap < chunk_size`, so the step `chunk_size - chunk_overlap`
is positive and the loop terminates). Each iteration emits the window
`tokens[start:end]` with `end = min(start + chunk_size, len(tokens))`,
then advances `start` by `chunk_size - chunk_overlap`. -/
def chunkLoop (tk : Tokenizer) (cs ov : Nat) (hov : ov < cs)
    (tokens : List Nat) (source : String) (start chunk_id : Nat) : List PyChunk :=
  if h : start < tokens.length then
    let e := min (start + cs) tokens.length
    let chunk_tokens := (tokens.drop start).take (e - start)
    { content := tk.decode chunk_tokens,
      chunk_id := chunk_id,
      token_count := chunk_tokens.length,
      start_token := start,
      end_token := e,
      source := source } ::
      chunkLoop tk cs ov hov tokens source (start + (cs - ov)) (chunk_id + 1)
  else []
termination_by tokens.length - start
decreasing_by
  exact Nat.sub_lt_sub_left h (Nat.lt_add_of_pos_right (Nat.sub_pos_of_lt hov))

/-- Source `chunk_text` (`src/text_processor.py:48-86`): returns `[]`
for empty or whitespace-only text, otherwise runs the window loop on
`self.tokenizer.encode(text)` starting at `start = 0`, `chunk_id = 0`. -/
def TextProcessor.chunk_text (tp : TextProcessor)
    (hov : tp.chunk_overlap < tp.chunk_size) (text : String) (source : String) :
    List PyChunk :=
  if text = "" ∨ pyStrip text = "" then []
  else chunkLoop tp.tokenizer tp.chunk_size tp.chunk_overlap hov
    (tp.tokenizer.encode text) source 0 0

/-- Value of the loop variable `start` of `chunk_text` after `k`
iterations of `start += self.chunk_size - self.chunk_overlap`
(`src/text_processor.py:83`), with the sizes as Python integers so that
an invalid configuration (`chunk_overlap >= chunk_size`) is expressible:
the loop keeps running while `start < len(tokens)`. -/
def chunkLoopStart (cs ov : Int) : Nat → Int
  | 0 => 0
  | k + 1 => chunkLoopStart cs ov k + (cs - ov)

/-- Source `_truncate` (`src/text_processor.py:183-188`): re-encode the
text; return it unchanged when it fits in `max_tokens`, otherwise decode
the first `max_tokens` tokens and append the `"..."` marker. -/
def TextProcessor.pyTruncate (tp : TextProcessor) (text : String) (max_tokens : Int) : String :=
  let tokens := tp.tokenizer.encode text
  if (tokens.length : Int) ≤ max_tokens then text
  else tp.tokenizer.decode (pyTake tokens max_tokens) ++ "..."

/-- Rendering of the similarity score in `_format_chunk`'s header
(the Python f-string `f"{similarity:.3f}"`); the claims depend only on
whether the score appears, never on its digits, so the rational is
rendered with its standard string form. -/
def fmtSim (q : ℚ) : String := toString q

/-- A chunk dictionary as consumed by `assemble_context` and
`_format_chunk`: retrieved rows carry all keys, but the code reads
every key except `content` with `dict.get` and a default, so each such
field is optional here, with the source default applied at the use
site. -/
structure RChunk where
  content : String
  source : Option String := none
  chunk_id : Option Nat := none
  start_token : Option Nat := none
  end_token : Option Nat := none
  token_count : Option Nat := none
  similarity : Option ℚ := none
deriving DecidableEq

/-- Source `_format_chunk` (`src/text_processor.py:169-180`): header
`[source | Chunk id]`, with ` | Similarity s` inserted before the
closing bracket only when `chunk.get("similarity", 0) > 0`; the body is
the (possibly truncated) content on the next line. -/
def TextProcessor.format_chunk (chunk : RChunk) (content : String) : String :=
  let source := chunk.source.getD "unknown"
  let chunk_id := chunk.chunk_id.getD 0
  let similarity := chunk.similarity.getD 0
  let header := "[" ++ source ++ " | Chunk " ++ toString chunk_id ++
    (if similarity > 0 then " | Similarity " ++ fmtSim similarity else "") ++ "]"
  header ++ "\n" ++ content

/-- Token budget computed by `assemble_context`
(`src/text_processor.py:136-140`):
`max(self.max_context_tokens - (count(question) + system + answer), 500)`. -/
def TextProcessor.availableTokens (tp : TextProcessor) (question : String)
    (system_prompt_tokens answer_reserve_tokens : Int) : Int :=
  max (tp.max_context_tokens -
    ((tp.count_tokens question : Int) + system_prompt_tokens + answer_reserve_tokens)) 500

/-- The `for chunk in chunks` loop of `assemble_context`
(`src/text_processor.py:143-158`), with the accumulated `parts` and
`used_tokens` explicit. A chunk that fits (`used + token_count <=
available`) is formatted and appended; the first chunk that would
overflow ends the loop, and when it is the very first chunk (`parts`
still empty) it is appended truncated to the remaining budget first. -/
def assembleLoop (tp : TextProcessor) (available : Int) :
    List RChunk → Int → List String → List String
  | [], _, parts => parts
  | chunk :: rest, used_tokens, parts =>
    let chunk_tokens : Int := (chunk.token_count.getD 0 : Int)
    if used_tokens + chunk_tokens > available then
      if parts = [] then
        parts ++ [TextProcessor.format_chunk chunk
          (tp.pyTruncate chunk.content (available - used_tokens))]
      else parts
    else
      assembleLoop tp available rest (used_tokens + chunk_tokens)
        (parts ++ [TextProcessor.format_chunk chunk chunk.content])

/-- The list of formatted blocks built by `assemble_context`
(`src/text_processor.py:132-158`): empty input short-circuits to no
blocks, otherwise the loop runs with `used_tokens = 0` and empty
`parts`. -/
def TextProcessor.assembleParts (tp : TextProcessor) (chunks : List RChunk)
    (question : String) (system_prompt_tokens answer_reserve_tokens : Int) :
    List String :=
  if chunks = [] then []
  else assembleLoop tp
    (tp.availableTokens question system_prompt_tokens answer_reserve_tokens)
    chunks 0 []

/-- Source `assemble_context` (`src/text_processor.py:114-166`): the
formatted blocks joined with the fixed separator. -/
def TextProcessor.assemble_context (tp : TextProcessor) (chunks : List RChunk)
    (question : String) (system_prompt_tokens answer_reserve_tokens : Int) : String :=
  String.intercalate "\n\n---\n\n"
    (tp.assembleParts chunks question system_prompt_tokens answer_reserve_tokens)

/-- Error raised by the store transport layer (a psycopg2 exception)
while executing the search query. -/
structure TransportError where
  msg : String
deriving DecidableEq

/-- Spec error type `RetrievalFailure` (section 7 of the spec); the
repository defines no such class and `search` never raises, so this
type only appears in the return type of the model, never in a value. -/
structure RetrievalFailure where
  msg : String
deriving DecidableEq

/-- One row of the `documents` table as selected by the search SQL
(`src/pgvector_client.py:228-241`), with the pgvector cosine distance
`embedding <=> query` of this row to the current query abstracted as
the rational `dist`. -/
structure StoredRow where
  content : String
  source : String
  chunk_id : Nat
  start_token : Nat
  end_token : Nat
  token_count : Nat
  dist : ℚ
deriving DecidableEq

/-- Result-set semantics of the search SQL
(`src/pgvector_client.py:228-241`): keep the rows with
`1 - (embedding <=> q) >= similarity_threshold`, order by
`embedding <=> q` ascending (a stable sort; the tie-break for equal
distance is unspecified by SQL), and apply `LIMIT k`. -/
def runQuery (table : List StoredRow) (similarity_threshold : ℚ) (k : Nat) :
    List StoredRow :=
  ((table.filter (fun r => decide (1 - r.dist ≥ similarity_threshold))).insertionSort
    (fun a b => a.dist ≤ b.dist)).take k

/-- Conversion of one fetched row to the result dictionary built by
`search` (`src/pgvector_client.py:249-260`): `similarity` is the
selected `1 - (embedding <=> q)` column. -/
def rowToChunk (r : StoredRow) : RChunk :=
  { content := r.content,
    source := some r.source,
    chunk_id := some r.chunk_id,
    start_token := some r.start_token,
    end_token := some r.end_token,
    token_count := some r.token_count,
    similarity := some (1 - r.dist) }

/-- Source `PgVectorClient.search` (`src/pgvector_client.py:186-267`),
as a function of the outcome of the cursor execute/fetch round trip:
on success the rows are mapped to result dictionaries and returned; on
any exception the handler logs and returns `[]`
(`src/pgvector_client.py:265-267`). The `Except RetrievalFailure`
return type records whether the call raises (`.error`) or returns
normally (`.ok`). -/
def PgVectorClient.search (exec : Except TransportError (List StoredRow)) :
    Except RetrievalFailure (List RChunk) :=
  match exec with
  | .ok rows => .ok (rows.map rowToChunk)
  | .error _ => .ok []

/-- Search against a store whose fetch succeeds: execute the query on
the table and convert the rows. -/
def PgVectorClient.searchOn (table : List StoredRow) (similarity_threshold : ℚ)
    (k : Nat) : Except RetrievalFailure (List RChunk) :=
  PgVectorClient.search (.ok (runQuery table similarity_threshold k))

/-- The batch slices `chunks[i:i + batch_size]` for
`i in range(0, len(chunks), batch_size)`
(`src/insert_documents.py:122-123`), written as take/drop recursion
(equal to the range slicing for every positive batch size; Python
raises for step `0`, rendered here as no batches). -/
def pyBatches (batch_size : Nat) (l : List α) : List (List α) :=
  match batch_size, l with
  | 0, _ => []
  | _, [] => []
  | b + 1, x :: xs => (x :: xs).take (b + 1) :: pyBatches (b + 1) ((x :: xs).drop (b + 1))
termination_by l.length
decreasing_by
  simpa using Nat.lt_succ_of_le (Nat.sub_le _ _)

/-- A chunk dictionary after `chunk['embedding'] = all_embeddings[i]`
(`src/insert_documents.py:130-134`). -/
structure EmbChunk where
  chunk : PyChunk
  embedding : List ℚ
deriving DecidableEq

/-- Source `transform_chunks_with_embeddings`
(`src/insert_documents.py:106-137`), with the external
`hf_client.get_embeddings` abstracted as `embed`. The first loop
dispatches the batch slices in input order and extends
`all_embeddings` with each batch result in dispatch order; the second
loop assigns `all_embeddings[i]` to chunk `i` (an `IndexError` — the
`.error` case — when fewer embeddings than chunks came back). -/
def transform_chunks_with_embeddings (embed : List String → List (List ℚ))
    (chunks : List PyChunk) (batch_size : Nat) : Except String (List EmbChunk) :=
  let all_embeddings :=
    ((pyBatches batch_size chunks).map
      (fun batch => embed (batch.map (fun c => c.content)))).flatten
  if all_embeddings.length < chunks.length then .error "IndexError"
  else .ok (List.zipWith (fun c e => { chunk := c, embedding := e }) chunks all_embeddings)

/-- Greedy prefix stated from the words of the spec (sections 4.5 and
8): walk the ranked chunks in order accumulating `token_count` while
`used_tokens + token_count <= available`, and stop at the first chunk
that would overflow, dropping everything after it. Used to compare
`assemble_context`'s loop against the claimed selection rule. -/
def greedySpecPrefix (available : Int) : Int → List RChunk → List RChunk
  | _, [] => []
  | used_tokens, chunk :: rest =>
    if used_tokens + (chunk.token_count.getD 0 : Int) ≤ available then
      chunk :: greedySpecPrefix available (used_tokens + (chunk.token_count.getD 0 : Int)) rest
    else []

/-- Token overlaps of consecutive windows: for each adjacent pair of
`(start, end)` windows, the size of the intersection
`earlier.end - later.start`. -/
def consecOverlaps (ws : List (Nat × Nat)) : List Nat :=
  List.zipWith (fun a b => a.2 - b.1) ws ws.tail

/-- Default chunk value (for positional `getD` access in statements). -/
def defaultPyChunk : PyChunk :=
  { content := "", chunk_id := 0, token_count := 0,
    start_token := 0, end_token := 0, source := "" }

/-- Processor configured as in the spec's context-assembly budget
example: `max_context_tokens = 100` (chunking sizes as the source's
defaults). -/
def exTP : TextProcessor := TextProcessor.init 512 50 100 charTok

/-- Ranked chunk of 40 tokens (first of the budget example). -/
def exChunk40a : RChunk := { content := "alpha", token_count := some 40 }

/-- Ranked chunk of 40 tokens (second of the budget example). -/
def exChunk40b : RChunk := { content := "beta", token_count := some 40 }

/-- Ranked chunk of 10 tokens (third of the budget example). -/
def exChunk10 : RChunk := { content := "gamma", token_count := some 10 }

/-- Oversized candidate chunk: 501 one-character tokens, more than any
budget the assembler can compute for `max_context_tokens = 100`. -/
def exBigChunk : RChunk :=
  { content := String.mk (List.replicate 501 'a'), token_count := some 501 }

/-- First ingestion chunk of the batching example. -/
def exPyChunkA : PyChunk :=
  { content := "one", chunk_id := 0, token_count := 3,
    start_token := 0, end_token := 3, source := "doc.txt" }

/-- Second ingestion chunk of the batching example. -/
def exPyChunkB : PyChunk :=
  { content := "two", chunk_id := 1, token_count := 3,
    start_token := 2, end_token := 5, source := "doc.txt" }

/-- Third ingestion chunk of the batching example. -/
def exPyChunkC : PyChunk :=
  { content := "three", chunk_id := 2, token_count := 2,
    start_token := 4, end_token := 6, source := "doc.txt" }

/-- Per-text embedding function of the batching example (vector =
the text's length, as a one-dimensional embedding). -/
def exEmbedVec (s : String) : List ℚ := [(s.length : ℚ)]

/-- Processor with `chunk_size = 5`, `chunk_overlap = 3`: a valid
configuration whose step (`2`) is smaller than its window. -/
def exTP53 : TextProcessor := TextProcessor.init 5 3 2000 charTok

/-! ## Claim C1 — transport failure during search -/

/-- Claim C1, counterexample. At the concrete transport failure
"connection refused", `PgVectorClient.search` returns normally with the
empty result list (`Except.ok []`): it does not raise a
`RetrievalFailure`, and the failure outcome is exactly the empty list
the claim says it can never be. -/
theorem c1_search_swallows_failure_counterexample :
    PgVectorClient.search (Except.error { msg := "connection refused" }) =
      Except.ok ([] : List RChunk) := rfl

/-- Claim C1, amended. `search` wraps the store round trip in a handler
that catches every exception, logs it and returns `[]`: a transport
failure produces the same empty list as the zero-matches outcome (no
`RetrievalFailure` is ever raised — `search` returns normally on every
input). -/
theorem c1_search_failure_returns_empty_amended :
    (∀ e : TransportError,
      PgVectorClient.search (Except.error e) = Except.ok []) ∧
    (∀ exec : Except TransportError (List StoredRow),
      ∃ rs, PgVectorClient.search exec = Except.ok rs) := by
  constructor
  · intro e
    rfl
  · intro exec
    cases exec with
    | ok rows => exact ⟨rows.map rowToChunk, rfl⟩
    | error e => exact ⟨[], rfl⟩

/-! ## Claim C2 — invalid chunking configuration -/

/-- Claim C2 (code bug): evaluation of the code at the failing input.
With `chunk_size = 2`, `chunk_overlap = 2` and a one-token text, the
step `chunk_size - chunk_overlap` is `0`, so after every number of
iterations the loop variable `start` still satisfies the guard
`start < len(tokens)`: the `while` loop of `chunk_text` never
terminates. In general, whenever `chunk_overlap >= chunk_size`, `start`
never exceeds `0`, so the loop never terminates on any non-empty token
sequence; no `ConfigurationError` (or any validation) exists in the
code. -/
theorem c2_invalid_config_never_terminates :
    (∀ k : Nat, chunkLoopStart 2 2 k < 1) ∧
    (∀ cs ov : Int, cs ≤ ov → ∀ k : Nat, chunkLoopStart cs ov k ≤ 0) := by
  constructor
  · intro k
    have h : chunkLoopStart 2 2 k = 0 := by
      induction k with
      | zero => rfl
      | succ k ih => simp [chunkLoopStart, ih]
    simp [h]
  · intro cs ov hle k
    induction k with
    | zero => simp [chunkLoopStart]
    | succ k ih =>
      have : cs - ov ≤ 0 := by omega
      simp only [chunkLoopStart]
      omega

/-! ## Claim C3 — the 65-token budget scenario -/

/-- Claim C3, counterexample. With `max_context_tokens = 100`, reserves
`10` and `20`, and the 5-token question `"hello"`, the assembler's
budget is not `65`: the `max(…, 500)` floor lifts it to `500`, so all
three ranked chunks of sizes `[40, 40, 10]` fit and three formatted
blocks are produced, not one. -/
theorem c3_budget_floor_counterexample :
    exTP.availableTokens "hello" 10 20 = 500 ∧
    exTP.availableTokens "hello" 10 20 ≠ 65 ∧
    (exTP.assembleParts [exChunk40a, exChunk40b, exChunk10] "hello" 10 20).length = 3 ∧
    (exTP.assembleParts [exChunk40a, exChunk40b, exChunk10] "hello" 10 20).length ≠ 1 := by
  refine ⟨by decide, by decide, ?_, ?_⟩ <;>
    simp [exTP, TextProcessor.assembleParts, assembleLoop, TextProcessor.availableTokens,
      TextProcessor.init, TextProcessor.count_tokens, charTok, exChunk40a, exChunk40b, exChunk10]

/-- Claim C3, amended. In the same scenario the code computes
`available = max(100 - (5 + 10 + 20), 500) = 500`, and the three ranked
chunks of sizes `[40, 40, 10]` all fit (`40 + 40 + 10 = 90 <= 500`), so
all three are assembled, producing exactly three formatted blocks. -/
theorem c3_budget_floor_amended :
    exTP.availableTokens "hello" 10 20 =
      max (100 - ((5 : Int) + 10 + 20)) 500 ∧
    (exTP.assembleParts [exChunk40a, exChunk40b, exChunk10] "hello" 10 20).length = 3 := by
  refine ⟨by decide, ?_⟩
  simp [exTP, TextProcessor.assembleParts, assembleLoop, TextProcessor.availableTokens,
    TextProcessor.init, TextProcessor.count_tokens, charTok, exChunk40a, exChunk40b, exChunk10]

/-! ## Claim C10 — similarity in the formatted header -/

/-- Claim C10. The header built by `_format_chunk` always carries the
source and the chunk id, and carries the similarity field exactly when
`chunk.get("similarity", 0) > 0`: for a missing similarity (`getD`
default `0`), a zero similarity, or a negative (legitimate cosine)
similarity, the header is `[source | Chunk id]` with no similarity part
at all. -/
theorem c10_format_chunk_similarity_only_when_positive
    (chunk : RChunk) (content : String) :
    (chunk.similarity.getD 0 ≤ 0 →
      TextProcessor.format_chunk chunk content =
        "[" ++ chunk.source.getD "unknown" ++ " | Chunk " ++
          toString (chunk.chunk_id.getD 0) ++ "]" ++ "\n" ++ content) ∧
    (0 < chunk.similarity.getD 0 →
      TextProcessor.format_chunk chunk content =
        "[" ++ chunk.source.getD "unknown" ++ " | Chunk " ++
          toString (chunk.chunk_id.getD 0) ++ " | Similarity " ++
          fmtSim (chunk.similarity.getD 0) ++ "]" ++ "\n" ++ content) := by
  constructor
  · intro h
    simp [TextProcessor.format_chunk, if_neg (not_lt.mpr h), String.append_assoc]
  · intro h
    simp [TextProcessor.format_chunk, if_pos h, String.append_assoc]

/-! ## Infrastructure for the assembly loop (claims C4 and C6) -/

/-- A formatted block is never the empty string: its header starts with
a bracket and a newline separates it from the body. -/
theorem format_chunk_ne_empty (chunk : RChunk) (content : String) :
    TextProcessor.format_chunk chunk content ≠ "" := by
  intro h
  have hlen : (TextProcessor.format_chunk chunk content).length = 0 := by
    rw [h]
    rfl
  simp only [TextProcessor.format_chunk, String.length_append] at hlen
  have hnl : ("\n" : String).length = 1 := rfl
  omega

/-- The accumulated `parts` of the assembly loop never shrinks: a
non-empty accumulator yields a non-empty result. -/
theorem assembleLoop_ne_nil (tp : TextProcessor) (avail : Int) :
    ∀ (chunks : List RChunk) (used : Int) (parts : List String),
      parts ≠ [] → assembleLoop tp avail chunks used parts ≠ [] := by
  intro chunks
  induction chunks with
  | nil =>
    intro used parts h
    simpa [assembleLoop] using h
  | cons c rest ih =>
    intro used parts h
    simp only [assembleLoop]
    split
    · exact h
    · exact ih _ _ (by simp)

/-- Every string in the assembly loop's output is either carried over
from the accumulator or a formatted block, hence never empty when the
accumulator holds no empty string. -/
theorem assembleLoop_mem_ne_empty (tp : TextProcessor) (avail : Int) :
    ∀ (chunks : List RChunk) (used : Int) (parts : List String),
      (∀ p ∈ parts, p ≠ "") →
      ∀ p ∈ assembleLoop tp avail chunks used parts, p ≠ "" := by
  intro chunks
  induction chunks with
  | nil =>
    intro used parts h
    simpa [assembleLoop] using h
  | cons c rest ih =>
    intro used parts h
    simp only [assembleLoop]
    by_cases hcond : used + (c.token_count.getD 0 : Int) > avail
    · rw [if_pos hcond]
      by_cases hp : parts = []
      · rw [if_pos hp]
        intro p hpmem
        rcases List.mem_append.mp hpmem with hmem | hmem
        · exact h p hmem
        · rcases List.mem_singleton.mp hmem with rfl
          exact format_chunk_ne_empty _ _
      · rw [if_neg hp]
        exact h
    · rw [if_neg hcond]
      refine ih _ _ ?_
      intro p hp
      rcases List.mem_append.mp hp with hp | hp
      · exact h p hp
      · rcases List.mem_singleton.mp hp with rfl
        exact format_chunk_ne_empty _ _

/-- The join helper of `String.intercalate` never loses the accumulator:
the result is at least as long. -/
theorem intercalate_go_length (s : String) :
    ∀ (as : List String) (acc : String),
      acc.length ≤ (String.intercalate.go acc s as).length := by
  intro as
  induction as with
  | nil =>
    intro acc
    simp [String.intercalate.go]
  | cons a as ih =>
    intro acc
    calc acc.length ≤ (acc ++ s ++ a).length := by
          simp only [String.length_append]
          omega
      _ ≤ (String.intercalate.go (acc ++ s ++ a) s as).length := ih _

/-- Joining a non-empty list whose first string is non-empty gives a
non-empty string. -/
theorem intercalate_cons_ne_empty (s a : String) (as : List String) (ha : a ≠ "") :
    String.intercalate s (a :: as) ≠ "" := by
  intro h
  have h1 : a.length ≤ (String.intercalate s (a :: as)).length := by
    simp only [String.intercalate]
    exact intercalate_go_length s as a
  rw [h] at h1
  have h2 : a.length = 0 := Nat.le_antisymm h1 (Nat.zero_le _)
  cases a with
  | mk data =>
    have h3 : data = [] := List.length_eq_zero.mp h2
    subst h3
    exact ha rfl

/-- Once at least one block has been emitted, the assembly loop is the
accumulator followed by the formatted greedy prefix of the remaining
chunks: it includes chunks while they fit and drops everything from the
first overflowing chunk on. -/
theorem assembleLoop_eq_append (tp : TextProcessor) (avail : Int) :
    ∀ (chunks : List RChunk) (used : Int) (parts : List String), parts ≠ [] →
      assembleLoop tp avail chunks used parts =
        parts ++ (greedySpecPrefix avail used chunks).map
          (fun c => TextProcessor.format_chunk c c.content) := by
  intro chunks
  induction chunks with
  | nil =>
    intro used parts h
    simp [assembleLoop, greedySpecPrefix]
  | cons c rest ih =>
    intro used parts h
    simp only [assembleLoop, greedySpecPrefix]
    by_cases hcond : used + (c.token_count.getD 0 : Int) > avail
    · rw [if_pos hcond, if_neg h, if_neg (by omega : ¬ used + (c.token_count.getD 0 : Int) ≤ avail)]
      simp
    · rw [if_neg hcond, if_pos (by omega : used + (c.token_count.getD 0 : Int) ≤ avail),
        ih _ _ (by simp)]
      simp

/-! ## Claim C4 — first-chunk guarantee -/

/-- Claim C4. If the very first candidate chunk alone exceeds the
available budget (its `token_count`, which equals the token length of
its content, is larger than `available`), it is still included: the
assembler emits exactly one block whose body is the content truncated at
token level to the budget with the `"..."` marker appended. Moreover,
for every non-empty candidate list the assembler returns a non-empty
block list and a non-empty context string. -/
theorem c4_first_chunk_guarantee (tp : TextProcessor) (c : RChunk) (rest : List RChunk)
    (question : String) (sys ans : Int)
    (hover : tp.availableTokens question sys ans < (c.token_count.getD 0 : Int))
    (hlen : ((tp.tokenizer.encode c.content).length : Int) = (c.token_count.getD 0 : Int)) :
    tp.assembleParts (c :: rest) question sys ans =
      [TextProcessor.format_chunk c
        (tp.tokenizer.decode
          (pyTake (tp.tokenizer.encode c.content)
            (tp.availableTokens question sys ans)) ++ "...")] ∧
    (∀ chunks : List RChunk, chunks ≠ [] →
      tp.assembleParts chunks question sys ans ≠ [] ∧
      tp.assemble_context chunks question sys ans ≠ "") := by
  constructor
  · have havail := tp.availableTokens question sys ans
    simp only [TextProcessor.assembleParts]
    rw [if_neg (by simp : ¬ (c :: rest : List RChunk) = [])]
    simp only [assembleLoop]
    rw [if_pos (by omega : (0 : Int) + (c.token_count.getD 0 : Int) >
      tp.availableTokens question sys ans)]
    simp only [if_true, List.nil_append, sub_zero]
    simp only [TextProcessor.pyTruncate]
    rw [if_neg (by omega :
      ¬ ((tp.tokenizer.encode c.content).length : Int) ≤ tp.availableTokens question sys ans)]
  · intro chunks hne
    rcases chunks with _ | ⟨c0, rest0⟩
    · exact absurd rfl hne
    have hloop : tp.assembleParts (c0 :: rest0) question sys ans =
        assembleLoop tp (tp.availableTokens question sys ans) (c0 :: rest0) 0 [] := by
      simp only [TextProcessor.assembleParts]
      rw [if_neg (by simp : ¬ (c0 :: rest0 : List RChunk) = [])]
    have hnn : tp.assembleParts (c0 :: rest0) question sys ans ≠ [] := by
      rw [hloop]
      simp only [assembleLoop]
      by_cases hcond : (0 : Int) + (c0.token_count.getD 0 : Int) >
          tp.availableTokens question sys ans
      · rw [if_pos hcond]
        simp
      · rw [if_neg hcond]
        exact assembleLoop_ne_nil tp _ rest0 _ _ (by simp)
    refine ⟨hnn, ?_⟩
    rcases List.exists_cons_of_ne_nil hnn with ⟨p, ps, hps⟩
    have hpmem : p ∈ tp.assembleParts (c0 :: rest0) question sys ans := by
      rw [hps]
      exact List.mem_cons_self _ _
    have hpne : p ≠ "" := by
      rw [hloop] at hpmem
      exact assembleLoop_mem_ne_empty tp _ (c0 :: rest0) 0 [] (by simp) p hpmem
    simp only [TextProcessor.assemble_context]
    rw [hps]
    exact intercalate_cons_ne_empty _ _ _ hpne

/-- Claim C4, witness: a single 501-token chunk against the 500-token
budget of `exTP` is included truncated with the marker, and contexts
from non-empty candidate lists are never empty. -/
theorem c4_first_chunk_guarantee_witness :
    exTP.assembleParts [exBigChunk] "hello" 10 20 =
      [TextProcessor.format_chunk exBigChunk
        (exTP.tokenizer.decode
          (pyTake (exTP.tokenizer.encode exBigChunk.content)
            (exTP.availableTokens "hello" 10 20)) ++ "...")] ∧
    (∀ chunks : List RChunk, chunks ≠ [] →
      exTP.assembleParts chunks "hello" 10 20 ≠ [] ∧
      exTP.assemble_context chunks "hello" 10 20 ≠ "") :=
  c4_first_chunk_guarantee exTP exBigChunk [] "hello" 10 20 (by decide)
    (by
      show (((List.replicate 501 'a').map Char.toNat).length : Int) = ((501 : Nat) : Int)
      rw [List.length_map, List.length_replicate])

/-! ## Claim C6 — budget formula and greedy selection -/

/-- Claim C6. The assembler's budget is
`max(max_context_tokens - (count(question) + system_reserve +
answer_reserve), 500)`, and when the first ranked chunk fits, the
emitted blocks are exactly the formatted greedy prefix: chunks are
included in the given order while `used_tokens + token_count <=
available`, and from the first chunk that would overflow on, every
chunk is dropped even if it would individually fit. -/
theorem c6_available_and_greedy (tp : TextProcessor) (c : RChunk) (rest : List RChunk)
    (question : String) (sys ans : Int)
    (hfit : (c.token_count.getD 0 : Int) ≤ tp.availableTokens question sys ans) :
    tp.availableTokens question sys ans =
      max (tp.max_context_tokens - ((tp.count_tokens question : Int) + sys + ans)) 500 ∧
    tp.assembleParts (c :: rest) question sys ans =
      (greedySpecPrefix (tp.availableTokens question sys ans) 0 (c :: rest)).map
        (fun ch => TextProcessor.format_chunk ch ch.content) := by
  refine ⟨rfl, ?_⟩
  simp only [TextProcessor.assembleParts]
  rw [if_neg (by simp : ¬ (c :: rest : List RChunk) = [])]
  simp only [assembleLoop, greedySpecPrefix]
  rw [if_neg (by omega : ¬ (0 : Int) + (c.token_count.getD 0 : Int) >
      tp.availableTokens question sys ans),
    if_pos (by omega : (0 : Int) + (c.token_count.getD 0 : Int) ≤
      tp.availableTokens question sys ans),
    assembleLoop_eq_append tp _ rest _ _ (by simp)]
  simp

/-- Claim C6, witness: at the concrete budget example, the three ranked
chunks of the file are selected exactly as the greedy prefix dictates. -/
theorem c6_available_and_greedy_witness :
    exTP.availableTokens "hello" 10 20 =
      max (exTP.max_context_tokens - ((exTP.count_tokens "hello" : Int) + 10 + 20)) 500 ∧
    exTP.assembleParts (exChunk40a :: [exChunk40b, exChunk10]) "hello" 10 20 =
      (greedySpecPrefix (exTP.availableTokens "hello" 10 20) 0
        (exChunk40a :: [exChunk40b, exChunk10])).map
        (fun ch => TextProcessor.format_chunk ch ch.content) :=
  c6_available_and_greedy exTP exChunk40a [exChunk40b, exChunk10] "hello" 10 20 (by decide)

/-! ## Claim C9 — batched embedding generation -/

/-- Concatenating the batch slices in dispatch order reassembles the
original list. -/
theorem pyBatches_flatten (b : Nat) (l : List α) (hb : 0 < b) :
    (pyBatches b l).flatten = l := by
  induction b, l using pyBatches.induct with
  | case1 l => exact absurd hb (by simp)
  | case2 b h => simp [pyBatches]
  | case3 b x xs ih =>
    rw [pyBatches]
    simp only [List.flatten_cons]
    rw [ih (Nat.succ_pos b)]
    exact List.take_append_drop _ _

/-- Zipping a list with its own image pairs each element with its own
image. -/
theorem zipWith_mk_map_self (g : PyChunk → List ℚ) :
    ∀ chunks : List PyChunk,
      List.zipWith (fun c e => ({ chunk := c, embedding := e } : EmbChunk))
          chunks (chunks.map g) =
        chunks.map (fun c => { chunk := c, embedding := g c }) := by
  intro chunks
  induction chunks with
  | nil => rfl
  | cons c rest ih => simp [ih]

/-- Claim C9. When the embedding gateway maps each text of a batch to
its own vector in order (the gateway contract), batched dispatch with
any positive batch size is transparent: the consecutive batch slices
are sent in input order, the returned vectors are concatenated by batch
position, and chunk `i` ends up paired with the embedding of its own
content — the result has the same length and order as the input chunk
list. -/
theorem c9_batched_embeddings_preserve_order (embed : List String → List (List ℚ))
    (f : String → List ℚ) (chunks : List PyChunk) (b : Nat)
    (hb : 0 < b) (hembed : ∀ ts, embed ts = ts.map f) :
    transform_chunks_with_embeddings embed chunks b =
      Except.ok (chunks.map (fun c => { chunk := c, embedding := f c.content })) := by
  have hemb : (((pyBatches b chunks).map
        (fun batch => embed (batch.map (fun c => c.content)))).flatten) =
      chunks.map (fun c => f c.content) := by
    calc ((pyBatches b chunks).map
          (fun batch => embed (batch.map (fun c => c.content)))).flatten
        = ((pyBatches b chunks).map
            (fun batch => batch.map (fun c => f c.content))).flatten := by
          simp only [hembed, List.map_map]
          rfl
      _ = (pyBatches b chunks).flatten.map (fun c => f c.content) := by
          rw [← List.map_flatten]
      _ = chunks.map (fun c => f c.content) := by
          rw [pyBatches_flatten b chunks hb]
  simp only [transform_chunks_with_embeddings, hemb]
  rw [if_neg (by simp : ¬ (chunks.map (fun c => f c.content)).length < chunks.length)]
  rw [zipWith_mk_map_self]

/-- Claim C9, witness: three chunks in batches of two receive their own
embeddings in input order. -/
theorem c9_batched_embeddings_preserve_order_witness :
    transform_chunks_with_embeddings (fun ts => ts.map exEmbedVec)
      [exPyChunkA, exPyChunkB, exPyChunkC] 2 =
      Except.ok ([exPyChunkA, exPyChunkB, exPyChunkC].map
        (fun c => { chunk := c, embedding := exEmbedVec c.content })) :=
  c9_batched_embeddings_preserve_order (fun ts => ts.map exEmbedVec) exEmbedVec
    [exPyChunkA, exPyChunkB, exPyChunkC] 2 (by decide) (fun ts => rfl)

/-! ## Claim C7 — search result contract -/

/-- Claim C7. Every result list of a successful `search` is the query's
rows converted to dictionaries; it is ordered by similarity descending
(distance ascending), has length at most `k`, and every element's
similarity meets the threshold. When no stored row meets the threshold
the result is the empty list, returned normally (no error). -/
theorem c7_search_ordered_thresholded (table : List StoredRow) (thr : ℚ) (k : Nat) :
    PgVectorClient.searchOn table thr k =
      Except.ok ((runQuery table thr k).map rowToChunk) ∧
    List.Sorted (fun a b : RChunk => b.similarity.getD 0 ≤ a.similarity.getD 0)
      ((runQuery table thr k).map rowToChunk) ∧
    ((runQuery table thr k).map rowToChunk).length ≤ k ∧
    (∀ c ∈ (runQuery table thr k).map rowToChunk, thr ≤ c.similarity.getD 0) ∧
    ((∀ r ∈ table, 1 - r.dist < thr) →
      PgVectorClient.searchOn table thr k = Except.ok []) := by
  have hsorted : List.Sorted (fun a b : StoredRow => a.dist ≤ b.dist)
      ((table.filter (fun r => decide (1 - r.dist ≥ thr))).insertionSort
        (fun a b => a.dist ≤ b.dist)) := by
    letI : IsTotal StoredRow (fun a b => a.dist ≤ b.dist) :=
      ⟨fun a b => le_total a.dist b.dist⟩
    letI : IsTrans StoredRow (fun a b => a.dist ≤ b.dist) :=
      ⟨fun a b c hab hbc => le_trans hab hbc⟩
    exact List.sorted_insertionSort _ _
  have htake : List.Sorted (fun a b : StoredRow => a.dist ≤ b.dist) (runQuery table thr k) :=
    List.Pairwise.sublist (List.take_sublist _ _) hsorted
  refine ⟨rfl, ?_, ?_, ?_, ?_⟩
  · refine List.pairwise_map.mpr (htake.imp ?_)
    intro a b hab
    show (rowToChunk b).similarity.getD 0 ≤ (rowToChunk a).similarity.getD 0
    simp only [rowToChunk, Option.getD_some]
    exact sub_le_sub_left hab 1
  · rw [List.length_map]
    exact (List.length_take_le _ _)
  · intro c hc
    rcases List.mem_map.mp hc with ⟨r, hr, rfl⟩
    have hr2 : r ∈ (table.filter (fun r => decide (1 - r.dist ≥ thr))).insertionSort
        (fun a b => a.dist ≤ b.dist) := List.mem_of_mem_take hr
    have hr3 : r ∈ table.filter (fun r => decide (1 - r.dist ≥ thr)) :=
      (List.perm_insertionSort _ _).mem_iff.mp hr2
    have hr4 := (List.mem_filter.mp hr3).2
    have hr5 : thr ≤ 1 - r.dist := of_decide_eq_true hr4
    simpa [rowToChunk] using hr5
  · intro h
    have hfilter : table.filter (fun r => decide (1 - r.dist ≥ thr)) = [] := by
      rw [List.filter_eq_nil_iff]
      intro r hr
      simp only [decide_eq_true_eq, ge_iff_le, not_le]
      exact h r hr
    simp [PgVectorClient.searchOn, PgVectorClient.search, runQuery, hfilter,
      List.insertionSort]

/-! ## Claim C8 — chunking edge cases -/

/-- Claim C8, counterexample. The text `"abcd"` has 4 tokens, fewer
than the chunk size 5, yet with overlap 3 the chunker emits two chunks
(windows `[0,4)` and `[2,4)`), not exactly one: "shorter than
`chunk_size`" does not suffice for a single chunk. -/
theorem c8_short_document_counterexample :
    (charTok.encode "abcd").length = 4 ∧
    (4 : Nat) < 5 ∧
    (exTP53.chunk_text (by decide) "abcd" "doc").length = 2 ∧
    (exTP53.chunk_text (by decide) "abcd" "doc").length ≠ 1 := by
  refine ⟨by decide, by decide, ?_, ?_⟩ <;>
    simp [exTP53, TextProcessor.init, TextProcessor.chunk_text, chunkLoop,
      pyStrip, isPySpace, charTok]

/-- Claim C8, amended. Chunking empty or whitespace-only text returns
the empty chunk list without error; a non-empty document whose token
sequence has length `n` with `1 <= n <= chunk_size - chunk_overlap`
(at most one step, which is implied by being shorter than `chunk_size`
only when the overlap is accounted for) yields exactly one chunk with
`start_token = 0` and `end_token = token_count = n`. -/
theorem c8_chunk_edge_cases (tp : TextProcessor)
    (hov : tp.chunk_overlap < tp.chunk_size) (source : String) :
    tp.chunk_text hov "" source = [] ∧
    (∀ text, pyStrip text = "" → tp.chunk_text hov text source = []) ∧
    (∀ text, text ≠ "" → pyStrip text ≠ "" →
      1 ≤ (tp.tokenizer.encode text).length →
      (tp.tokenizer.encode text).length ≤ tp.chunk_size - tp.chunk_overlap →
      tp.chunk_text hov text source =
        [{ content := tp.tokenizer.decode (tp.tokenizer.encode text),
           chunk_id := 0,
           token_count := (tp.tokenizer.encode text).length,
           start_token := 0,
           end_token := (tp.tokenizer.encode text).length,
           source := source }]) := by
  refine ⟨?_, ?_, ?_⟩
  · simp [TextProcessor.chunk_text]
  · intro text hstrip
    simp [TextProcessor.chunk_text, hstrip]
  · intro text hne hstrip h1 h2
    simp only [TextProcessor.chunk_text]
    rw [if_neg (by push_neg; exact ⟨hne, hstrip⟩)]
    rw [chunkLoop]
    rw [dif_pos (by omega : (0 : Nat) < (tp.tokenizer.encode text).length)]
    rw [chunkLoop]
    rw [dif_neg (by omega :
      ¬ (0 + (tp.chunk_size - tp.chunk_overlap) < (tp.tokenizer.encode text).length))]
    have hmin : tp.chunk_size ⊓ (tp.tokenizer.encode text).length =
        (tp.tokenizer.encode text).length := min_eq_right (by omega)
    simp [hmin, List.take_length]

/-- Claim C8, witness: with chunk size 5 and overlap 3, empty and
whitespace-only inputs give no chunks, and any 1- or 2-token document
gives exactly one full-range chunk. -/
theorem c8_chunk_edge_cases_witness :
    exTP53.chunk_text (by decide) "" "doc" = [] ∧
    (∀ text, pyStrip text = "" → exTP53.chunk_text (by decide) text "doc" = []) ∧
    (∀ text, text ≠ "" → pyStrip text ≠ "" →
      1 ≤ (exTP53.tokenizer.encode text).length →
      (exTP53.tokenizer.encode text).length ≤ exTP53.chunk_size - exTP53.chunk_overlap →
      exTP53.chunk_text (by decide) text "doc" =
        [{ content := exTP53.tokenizer.decode (exTP53.tokenizer.encode text),
           chunk_id := 0,
           token_count := (exTP53.tokenizer.encode text).length,
           start_token := 0,
           end_token := (exTP53.tokenizer.encode text).length,
           source := "doc" }]) :=
  c8_chunk_edge_cases exTP53 (by decide) "doc"

/-! ## Claim C5 — window arithmetic of the chunking loop -/

/-- Every chunk emitted by the loop ends at
`min(start + chunk_size, len(tokens))`, counts exactly its window
(`token_count = end - start`), and starts inside the token sequence. -/
theorem chunkLoop_shape (tk : Tokenizer) (cs ov : Nat) (hov : ov < cs)
    (L : List Nat) (src : String) :
    ∀ start id, ∀ c ∈ chunkLoop tk cs ov hov L src start id,
      c.end_token = min (c.start_token + cs) L.length ∧
      c.token_count = c.end_token - c.start_token ∧
      c.start_token < L.length := by
  intro start id
  induction start, id using chunkLoop.induct tk cs ov hov L src with
  | case1 start id h ih =>
    intro c hc
    rw [chunkLoop, dif_pos h] at hc
    rcases List.mem_cons.mp hc with rfl | hc
    · refine ⟨rfl, ?_, h⟩
      show ((L.drop start).take (min (start + cs) L.length - start)).length =
        min (start + cs) L.length - start
      rw [List.length_take, List.length_drop]
      omega
    · exact ih c hc
  | case2 start id h =>
    intro c hc
    rw [chunkLoop, dif_neg h] at hc
    exact absurd hc (List.not_mem_nil c)

/-- The emitted windows cover the whole token range: every token index
from `start` on lies inside some emitted window. -/
theorem chunkLoop_cover (tk : Tokenizer) (cs ov : Nat) (hov : ov < cs)
    (L : List Nat) (src : String) :
    ∀ start id t, start ≤ t → t < L.length →
      ∃ c ∈ chunkLoop tk cs ov hov L src start id,
        c.start_token ≤ t ∧ t < c.end_token := by
  intro start id
  induction start, id using chunkLoop.induct tk cs ov hov L src with
  | case1 start id h ih =>
    intro t ht1 ht2
    by_cases hlt : t < min (start + cs) L.length
    · have hmem : PyChunk.mk
          (tk.decode ((L.drop start).take (min (start + cs) L.length - start)))
          id
          ((L.drop start).take (min (start + cs) L.length - start)).length
          start
          (min (start + cs) L.length)
          src ∈ chunkLoop tk cs ov hov L src start id := by
        rw [chunkLoop, dif_pos h]
        exact List.mem_cons_self _ _
      exact ⟨_, hmem, ht1, hlt⟩
    · have hstep : start + (cs - ov) ≤ t := by omega
      rcases ih t hstep ht2 with ⟨c, hc, hP⟩
      refine ⟨c, ?_, hP⟩
      rw [chunkLoop, dif_pos h]
      exact List.mem_cons_of_mem _ hc
  | case2 start id h =>
    intro t ht1 ht2
    omega

/-- When the loop emits at least one chunk, the first one starts at the
current `start`, which is still inside the token sequence. -/
theorem chunkLoop_head_start (tk : Tokenizer) (cs ov : Nat) (hov : ov < cs)
    (L : List Nat) (src : String) :
    ∀ start id c rest, chunkLoop tk cs ov hov L src start id = c :: rest →
      c.start_token = start ∧ start < L.length := by
  intro start id c rest hcons
  by_cases hlt : start < L.length
  · rw [chunkLoop, dif_pos hlt] at hcons
    injection hcons with h1 h2
    rw [← h1]
    exact ⟨rfl, hlt⟩
  · rw [chunkLoop, dif_neg hlt] at hcons
    exact absurd hcons (by simp)

/-- Consecutive emitted windows: the next window starts exactly one
step (`chunk_size - chunk_overlap`) later, and the windows intersect in
`overlap - (start + chunk_size - end)` tokens — exactly `overlap` when
the earlier window is full, less when the earlier window was already
clipped at the end of the token sequence. -/
theorem chunkLoop_chain (tk : Tokenizer) (cs ov : Nat) (hov : ov < cs)
    (L : List Nat) (src : String) :
    ∀ start id, List.Chain' (fun a b : PyChunk =>
        b.start_token = a.start_token + (cs - ov) ∧
        a.end_token - b.start_token = ov - (a.start_token + cs - a.end_token))
      (chunkLoop tk cs ov hov L src start id) := by
  intro start id
  induction start, id using chunkLoop.induct tk cs ov hov L src with
  | case1 start id h ih =>
    rw [chunkLoop, dif_pos h]
    refine List.chain'_cons'.mpr ⟨?_, ih⟩
    intro y hy
    rcases hl : chunkLoop tk cs ov hov L src (start + (cs - ov)) (id + 1) with _ | ⟨c0, cl⟩
    · rw [hl] at hy
      simp at hy
    · rw [hl] at hy
      have hy0 : c0 = y := by simpa using hy
      rcases chunkLoop_head_start tk cs ov hov L src _ _ c0 cl hl with ⟨hstart, hin⟩
      subst hy0
      constructor
      · rw [hstart]
      · show min (start + cs) L.length - c0.start_token =
          ov - (start + cs - min (start + cs) L.length)
        rw [hstart]
        omega
  | case2 start id h =>
    rw [chunkLoop, dif_neg h]
    exact List.chain'_nil

/-- Claim C5, counterexample. With `chunk_size = 10`, `overlap = 8` and
16 tokens, the loop emits the windows
`[(0,10),(2,12),(4,14),(6,16),(8,16),(10,16),(12,16),(14,16)]`; the
consecutive pair `((8,16),(10,16))` overlaps by `6`, not `overlap = 8`,
and neither of those two windows is the last one (index 7 of 8): once a
window is clipped at the end of the sequence, consecutive overlaps
shrink below `overlap` even away from the final window. -/
theorem c5_clipped_overlap_counterexample :
    ((chunkLoop charTok 10 8 (by decide) (List.range 16) "doc" 0 0).map
      (fun c => (c.start_token, c.end_token))) =
      [(0,10),(2,12),(4,14),(6,16),(8,16),(10,16),(12,16),(14,16)] ∧
    consecOverlaps [(0,10),(2,12),(4,14),(6,16),(8,16),(10,16),(12,16),(14,16)] =
      [8, 8, 8, 8, 6, 4, 2] ∧
    (consecOverlaps [(0,10),(2,12),(4,14),(6,16),(8,16),(10,16),(12,16),(14,16)]).getD 4 0 = 6 ∧
    (6 : Nat) ≠ 8 ∧
    4 + 1 <
      [(0,10),(2,12),(4,14),(6,16),(8,16),(10,16),(12,16),(14,16)].length - 1 := by
  refine ⟨?_, by decide, by decide, by decide, by decide⟩
  simp [chunkLoop, charTok]

/-- Claim C5, amended. For every token sequence and `overlap <
chunk_size`, the loop starting at `0` emits windows
`[start, min(start + chunk_size, n))` with `start` advancing by
`chunk_size - overlap`; each chunk's `token_count` equals
`end - start`; the windows cover `[0, n)` with no gaps; and each
consecutive pair overlaps by `overlap - (start + chunk_size - end)`
tokens — exactly `overlap` when the earlier window is full
(`end = start + chunk_size`), and less once the earlier window is
already clipped at the end of the sequence (not only at the last
window). -/
theorem c5_window_structure (tk : Tokenizer) (cs ov : Nat) (hov : ov < cs)
    (L : List Nat) (src : String) :
    (∀ c ∈ chunkLoop tk cs ov hov L src 0 0,
      c.end_token = min (c.start_token + cs) L.length ∧
      c.token_count = c.end_token - c.start_token ∧
      c.start_token < L.length) ∧
    (∀ t, t < L.length → ∃ c ∈ chunkLoop tk cs ov hov L src 0 0,
      c.start_token ≤ t ∧ t < c.end_token) ∧
    List.Chain' (fun a b : PyChunk =>
        b.start_token = a.start_token + (cs - ov) ∧
        a.end_token - b.start_token = ov - (a.start_token + cs - a.end_token))
      (chunkLoop tk cs ov hov L src 0 0) ∧
    (∀ c rest, chunkLoop tk cs ov hov L src 0 0 = c :: rest → c.start_token = 0) ∧
    (L.length = 0 → chunkLoop tk cs ov hov L src 0 0 = []) := by
  refine ⟨chunkLoop_shape tk cs ov hov L src 0 0, ?_, chunkLoop_chain tk cs ov hov L src 0 0,
    ?_, ?_⟩
  · intro t ht
    exact chunkLoop_cover tk cs ov hov L src 0 0 t (Nat.zero_le t) ht
  · intro c rest hcons
    exact (chunkLoop_head_start tk cs ov hov L src 0 0 c rest hcons).1
  · intro hlen
    rw [chunkLoop, dif_neg (by omega)]

/-- Claim C5, witness: the window structure at `chunk_size = 3`,
`overlap = 1` over five tokens. -/
theorem c5_window_structure_witness :
    (∀ c ∈ chunkLoop charTok 3 1 (by decide) [7, 7, 7, 7, 7] "doc" 0 0,
      c.end_token = min (c.start_token + 3) ([7, 7, 7, 7, 7] : List Nat).length ∧
      c.token_count = c.end_token - c.start_token ∧
      c.start_token < ([7, 7, 7, 7, 7] : List Nat).length) ∧
    (∀ t, t < ([7, 7, 7, 7, 7] : List Nat).length →
      ∃ c ∈ chunkLoop charTok 3 1 (by decide) [7, 7, 7, 7, 7] "doc" 0 0,
      c.start_token ≤ t ∧ t < c.end_token) ∧
    List.Chain' (fun a b : PyChunk =>
        b.start_token = a.start_token + (3 - 1) ∧
        a.end_token - b.start_token = 1 - (a.start_token + 3 - a.end_token))
      (chunkLoop charTok 3 1 (by decide) [7, 7, 7, 7, 7] "doc" 0 0) ∧
    (∀ c rest, chunkLoop charTok 3 1 (by decide) [7, 7, 7, 7, 7] "doc" 0 0 = c :: rest →
      c.start_token = 0) ∧
    (([7, 7, 7, 7, 7] : List Nat).length = 0 →
      chunkLoop charTok 3 1 (by decide) [7, 7, 7, 7, 7] "doc" 0 0 = []) :=
  c5_window_structure charTok 3 1 (by decide) [7, 7, 7, 7, 7] "doc"
